import Mathlib

/-!
Verification development for the beacon service: a shallow embedding of the
durable-delivery pipeline (durable log in `internal/database/sqlite.go`, the
delivery worker in `internal/notifier/notifier.go`, the reconciler in
`internal/reconciler/reconciler.go`, the cleaner in `internal/cleaner/cleaner.go`
and the observer extraction in `internal/watcher/watcher.go`), together with
proofs and refutations of the specified properties.

Modelling conventions:
* timestamps are `Int` (RFC3339 strings in the store compare lexicographically,
  which for normalised UTC timestamps agrees with chronological order);
* label / annotation maps (JSON text columns in the store) are association
  lists `List (String × String)`; the empty list stands for the empty/absent
  JSON text;
* SQL `UPDATE ... WHERE` is a `List.map` guarded on the key; `DELETE` is a
  `List.filter`; the `INSERT` respects the `id` PRIMARY KEY (it fails on a
  duplicate `id`, and only on a duplicate `id`).
-/

namespace Beacon

/-- A row of the `managed_objects` table / `models.ManagedObject`
(`internal/models/models.go`), with the `annotations` column added by
`migrateSchema`. -/
structure ManagedObject where
  id : String
  resourceUID : String
  resourceType : String
  resourceName : String
  resourceNamespace : String
  annotationValue : String
  clusterState : String
  detectionSource : String
  createdAt : Int
  deletedAt : Option Int
  lastReconciled : Option Int
  notifiedCreated : Bool
  notifiedDeleted : Bool
  notificationFailed : Bool
  notificationFailedCode : Int
  createdNotificationSentAt : Option Int
  deletedNotificationSentAt : Option Int
  notificationAttempts : Nat
  lastNotificationAttempt : Option Int
  labels : List (String × String)
  annotations : List (String × String)
  resourceVersion : String
  deriving Repr, DecidableEq

/-- The `managed_objects` table: the rows in insertion order. -/
abbrev Log := List ManagedObject

/-- `models.ClusterStateExists`. -/
def ClusterStateExists : String := "exists"

/-- `models.ClusterStateDeleted`. -/
def ClusterStateDeleted : String := "deleted"

/-- `models.DetectionSourceWatch`. -/
def DetectionSourceWatch : String := "watch"

/-- `models.DetectionSourceMutation`. -/
def DetectionSourceMutation : String := "mutation"

/-- `models.DetectionSourceReconciliation`. -/
def DetectionSourceReconciliation : String := "reconciliation"

/-- `SQLiteDB.InsertManagedObject`: a plain SQL `INSERT`.  The only constraint
on the table is the PRIMARY KEY on `id` (the `resource_uid` column carries a
non-unique index `idx_resource_uid`), so the insert fails exactly when a row
with the same `id` is already present, and otherwise appends the row
unconditionally — in particular a row duplicating an existing `resource_uid`
is appended. -/
def insertManagedObject (log : Log) (obj : ManagedObject) : Option Log :=
  if log.any (fun r => r.id = obj.id) then none else some (log ++ [obj])

/-- `SQLiteDB.UpdateClusterState`: `UPDATE managed_objects SET cluster_state = ?,
deleted_at = ? WHERE resource_uid = ?`. -/
def updateClusterState (log : Log) (uid : String) (state : String)
    (deletedAt : Option Int) : Log :=
  log.map fun r =>
    if r.resourceUID = uid then
      { r with clusterState := state, deletedAt := deletedAt }
    else r

/-- `SQLiteDB.UpdateNotificationStatus`: sets the matching per-transition flag
and sent-at timestamp for the row with the given `id`; any event type other
than `"created"` / `"deleted"` is an error (`none`). -/
def updateNotificationStatus (log : Log) (id : String) (eventType : String)
    (sentAt : Int) : Option Log :=
  if eventType = "created" then
    some (log.map fun r =>
      if r.id = id then
        { r with notifiedCreated := true, createdNotificationSentAt := some sentAt }
      else r)
  else if eventType = "deleted" then
    some (log.map fun r =>
      if r.id = id then
        { r with notifiedDeleted := true, deletedNotificationSentAt := some sentAt }
      else r)
  else none

/-- `SQLiteDB.MarkNotificationFailed`: `UPDATE managed_objects SET
notification_failed = 1, notification_failed_code = ? WHERE id = ?`. -/
def markNotificationFailed (log : Log) (id : String) (statusCode : Int) : Log :=
  log.map fun r =>
    if r.id = id then
      { r with notificationFailed := true, notificationFailedCode := statusCode }
    else r

/-- `SQLiteDB.IncrementNotificationAttempts`: `UPDATE managed_objects SET
notification_attempts = notification_attempts + 1,
last_notification_attempt = ? WHERE id = ?`. -/
def incrementNotificationAttempts (log : Log) (id : String) (now : Int) : Log :=
  log.map fun r =>
    if r.id = id then
      { r with notificationAttempts := r.notificationAttempts + 1,
               lastNotificationAttempt := some now }
    else r

/-- `SQLiteDB.UpdateLastReconciled`: `UPDATE managed_objects SET
last_reconciled = ? WHERE id = ?`. -/
def updateLastReconciled (log : Log) (id : String) (reconciledAt : Int) : Log :=
  log.map fun r =>
    if r.id = id then { r with lastReconciled := some reconciledAt } else r

/-- `SQLiteDB.DeleteRecord`: `DELETE FROM managed_objects WHERE id = ?`. -/
def deleteRecord (log : Log) (id : String) : Log :=
  log.filter fun r => ¬ r.id = id

/-- The `WHERE` clause of `GetPendingNotifications`:
`(notified_created = 0 OR (cluster_state = 'deleted' AND notified_deleted = 0))
AND notification_failed = 0`. -/
def isPending (r : ManagedObject) : Bool :=
  (!r.notifiedCreated || (r.clusterState = ClusterStateDeleted && !r.notifiedDeleted))
    && !r.notificationFailed

/-- The `ORDER BY created_at ASC` comparison of `GetPendingNotifications`. -/
def createdLE (a b : ManagedObject) : Prop :=
  a.createdAt ≤ b.createdAt

instance : DecidableRel createdLE := fun a b => Int.decLe _ _

instance : IsTotal ManagedObject createdLE :=
  ⟨fun a b => Int.le_total a.createdAt b.createdAt⟩

instance : IsTrans ManagedObject createdLE :=
  ⟨fun _ _ _ hab hbc => Int.le_trans hab hbc⟩

/-- `SQLiteDB.GetPendingNotifications`: the rows satisfying the pending
predicate, ordered by `created_at ASC`, capped at `limit` (`LIMIT ?`). -/
def getPendingNotifications (log : Log) (limit : Nat) : List ManagedObject :=
  (List.insertionSort createdLE (log.filter isPending)).take limit

/-- `SQLiteDB.GetAllActiveObjects`: `WHERE cluster_state = 'exists' AND
resource_type = ?`. -/
def getAllActiveObjects (log : Log) (resourceType : String) : List ManagedObject :=
  log.filter fun r =>
    r.clusterState = ClusterStateExists && r.resourceType = resourceType

/-- The `WHERE` clause of `GetCleanupEligible`: `cluster_state = 'deleted' AND
notified_deleted = 1 AND notification_failed = 0 AND deleted_at < ?` with the
cutoff `now - retentionPeriod`; a SQL `NULL` `deleted_at` fails the comparison. -/
def isCleanupEligible (now retentionPeriod : Int) (r : ManagedObject) : Bool :=
  r.clusterState = ClusterStateDeleted && r.notifiedDeleted
    && !r.notificationFailed
    && (match r.deletedAt with
        | some d => d < now - retentionPeriod
        | none => false)

/-- `SQLiteDB.GetCleanupEligible`. -/
def getCleanupEligible (log : Log) (now retentionPeriod : Int) : List ManagedObject :=
  log.filter (isCleanupEligible now retentionPeriod)

/-- `config.RetryConfig` (`internal/config/config.go`).  Durations are
modelled in seconds; `jitter` (a float in the source, used only by the
floating-point `calculateBackoff`, whose value feeds nothing but a log line)
is kept as an opaque numerator out of 100. -/
structure RetryConfig where
  maxAttempts : Nat
  initialBackoff : Nat
  maxBackoff : Nat
  backoffMultiplier : Nat
  jitter : Nat
  deriving Repr, DecidableEq

/-- `config.EndpointConfig` restricted to the fields the notifier reads.
`headers` is the configured additional-headers map as an association list. -/
structure EndpointConfig where
  url : String
  timeout : Nat
  retry : RetryConfig
  headers : List (String × String)
  deriving Repr, DecidableEq

/-- `config.WorkerConfig`. -/
structure WorkerConfig where
  pollInterval : Nat
  batchSize : Nat
  concurrency : Nat
  deriving Repr, DecidableEq

/-- The slice of `config.Config` consumed by the notifier. -/
structure Config where
  appVersion : String
  authToken : String
  endpoint : EndpointConfig
  worker : WorkerConfig
  deriving Repr, DecidableEq

/-- `models.NotificationResource`. -/
structure NotificationResource where
  uid : String
  typ : String
  name : String
  ns : String
  annotationValue : String
  deriving Repr, DecidableEq

/-- `models.NotificationMetadata`; `none` maps stand for Go `nil` maps, which
`omitempty` drops from the serialised JSON. -/
structure NotificationMetadata where
  annotations : Option (List (String × String))
  labels : Option (List (String × String))
  resourceVersion : String
  deriving Repr, DecidableEq

/-- `models.NotificationPayload`: the flat JSON body built by the notifier. -/
structure NotificationPayload where
  id : String
  timestamp : String
  eventType : String
  resource : NotificationResource
  metadata : NotificationMetadata
  deriving Repr, DecidableEq

/-- A fragment of the JSON values `encoding/json` produces for the payload. -/
inductive Json where
  | str (s : String)
  | obj (fields : List (String × Json))

/-- The top-level keys of a JSON object. -/
def Json.topKeys : Json → List String
  | .str _ => []
  | .obj fields => fields.map Prod.fst

/-- Serialisation of a string map, in the order of the association list. -/
def mapJson (m : List (String × String)) : Json :=
  .obj (m.map fun kv => (kv.1, .str kv.2))

/-- `encoding/json` on `models.NotificationMetadata`: field order
`labels`, `resourceVersion` after the migration `annotations` first; the
`omitempty` tags drop `nil` maps and the empty `resourceVersion`. -/
def metadataJson (m : NotificationMetadata) : Json :=
  .obj ((match m.annotations with
          | some a => [("annotations", mapJson a)]
          | none => [])
    ++ (match m.labels with
          | some l => [("labels", mapJson l)]
          | none => [])
    ++ (if m.resourceVersion = "" then []
        else [("resourceVersion", Json.str m.resourceVersion)]))

/-- `encoding/json` on `models.NotificationResource`. -/
def resourceJson (r : NotificationResource) : Json :=
  .obj [("uid", .str r.uid), ("type", .str r.typ), ("name", .str r.name),
        ("namespace", .str r.ns), ("annotationValue", .str r.annotationValue)]

/-- `encoding/json` on `models.NotificationPayload`: the struct tags give the
top-level keys `id`, `timestamp`, `eventType`, `resource`, `metadata`, in the
declared field order. -/
def payloadJson (p : NotificationPayload) : Json :=
  .obj [("id", .str p.id), ("timestamp", .str p.timestamp),
        ("eventType", .str p.eventType), ("resource", resourceJson p.resource),
        ("metadata", metadataJson p.metadata)]

/-- Rendering of the JSON fragment to text (the `string(payloadBytes)` the
worker logs); strings are quoted verbatim — the inputs in scope contain no
characters `encoding/json` escapes. -/
def Json.render : Json → String
  | .str s => "\"" ++ s ++ "\""
  | .obj fields => "\x7b" ++ renderFields fields ++ "\x7d"
where
  /-- Comma-separated `"key":value` pairs. -/
  renderFields : List (String × Json) → String
  | [] => ""
  | [(k, v)] => "\"" ++ k ++ "\":" ++ v.render
  | (k, v) :: rest => "\"" ++ k ++ "\":" ++ v.render ++ "," ++ renderFields rest

/-- `buildPayload` (`notifier.go`): the flat envelope from the frozen record
fields.  The annotations JSON text is parsed and included only when non-empty;
the labels JSON text is parsed and included whenever the column is non-empty
(the association list being non-empty in the model). -/
def buildPayload (obj : ManagedObject) (eventType : String) (nowText : String) :
    NotificationPayload :=
  { id := obj.id
    timestamp := nowText
    eventType := eventType
    resource :=
      { uid := obj.resourceUID
        typ := obj.resourceType
        name := obj.resourceName
        ns := obj.resourceNamespace
        annotationValue := obj.annotationValue }
    metadata :=
      { annotations := if obj.annotations = [] then none else some obj.annotations
        labels := if obj.labels = [] then none else some obj.labels
        resourceVersion := obj.resourceVersion } }

/-- `http.Header.Set` semantics: replace any existing value for the key. -/
def setHeader (hs : List (String × String)) (k v : String) : List (String × String) :=
  hs.filter (fun kv => ¬ kv.1 = k) ++ [(k, v)]

/-- First value for a header key, if any. -/
def getHeader (hs : List (String × String)) (k : String) : Option String :=
  (hs.find? fun kv => kv.1 = k).map Prod.snd

/-- The HTTP request the notifier sends (method, URL, headers, body text). -/
structure Request where
  method : String
  url : String
  headers : List (String × String)
  body : String
  deriving Repr, DecidableEq

/-- `Notifier.buildRequest` (`notifier.go`): marshals the payload, creates a
`POST` request to the configured URL, then sets, in order, the standard
headers `Content-Type: application/json`, `User-Agent`, a fresh
`X-Request-ID` (passed in, being random), `X-Event-ID`; the bearer token when
configured; and finally every configured endpoint header — the configured
headers are applied last, so they overwrite the standard ones. -/
def buildRequest (cfg : Config) (payload : NotificationPayload)
    (requestID : String) : Request :=
  let h0 := setHeader [] "Content-Type" "application/json"
  let h1 := setHeader h0 "User-Agent" ("beacon/" ++ cfg.appVersion)
  let h2 := setHeader h1 "X-Request-ID" requestID
  let h3 := setHeader h2 "X-Event-ID" payload.id
  let h4 := if ¬ cfg.authToken = "" then
              setHeader h3 "Authorization" ("Bearer " ++ cfg.authToken)
            else h3
  let h5 := cfg.endpoint.headers.foldl (fun hs kv => setHeader hs kv.1 kv.2) h4
  { method := "POST"
    url := cfg.endpoint.url
    headers := h5
    body := (payloadJson payload).render }

/-- `isRetriable` (`notifier.go`): 408, 429, 500, 502, 503, 504. -/
def isRetriable (statusCode : Int) : Bool :=
  statusCode = 408 || statusCode = 429 || statusCode = 500
    || statusCode = 502 || statusCode = 503 || statusCode = 504

/-- The observable outcome of `client.Do`: a transport/timeout error
(`err ≠ nil`) or a response with a status code. -/
inductive DeliveryOutcome where
  | transportError
  | status (code : Int)
  deriving Repr, DecidableEq

/-- The single database mutation the worker issues for one outcome. -/
inductive DBAction where
  | markDelivered (id : String) (eventType : String)
  | bumpAttempt (id : String)
  | markTerminal (id : String) (statusCode : Int)
  deriving Repr, DecidableEq

/-- `Notifier.handleResponse` (`notifier.go`): classifies the outcome into the
database action it performs, paired with the serialised envelope it logs at
ERROR level (emitted only on the non-retriable branch).  An `err ≠ nil` from
the transport is checked first and bumps the attempt counter; a 2xx status
marks the transition delivered; a retriable status bumps the attempt counter
(the computed backoff feeds only a WARN log line); everything else logs the
serialised payload at ERROR and marks the record terminally failed with the
status code. -/
def handleResponse (obj : ManagedObject) (eventType : String)
    (outcome : DeliveryOutcome) (nowText : String) : DBAction × Option String :=
  match outcome with
  | .transportError => (.bumpAttempt obj.id, none)
  | .status code =>
    if 200 ≤ code ∧ code < 300 then
      (.markDelivered obj.id eventType, none)
    else if isRetriable code then
      (.bumpAttempt obj.id, none)
    else
      (.markTerminal obj.id code,
        some (payloadJson (buildPayload obj eventType nowText)).render)

/-- The transition selection at the head of `Notifier.processNotification`:
`created` when the creation is unnotified, otherwise `deleted` when the record
is deleted and the deletion is unnotified, otherwise nothing to notify (the
function returns before any request is built). -/
def selectEventType (obj : ManagedObject) : Option String :=
  if !obj.notifiedCreated then some "created"
  else if obj.clusterState = ClusterStateDeleted && !obj.notifiedDeleted then
    some "deleted"
  else none

/-- `Notifier.poll`: fetches up to `batchSize` pending rows and calls
`processNotification` on every one of them, with no further filtering — in
particular no comparison of `last_notification_attempt` plus backoff against
the clock. -/
def pollProcessed (log : Log) (cfg : Config) : List ManagedObject :=
  getPendingNotifications log cfg.worker.batchSize

/-- `cfg` with only `endpoint.retry.maxAttempts` replaced. -/
def setMaxAttempts (cfg : Config) (n : Nat) : Config :=
  { cfg with endpoint :=
      { cfg.endpoint with retry := { cfg.endpoint.retry with maxAttempts := n } } }

/-- The log after `n` consecutive retriable delivery failures for the record
with the given `id`: each failure makes the worker issue exactly
`IncrementNotificationAttempts` (the `bump_attempt` action). -/
def afterRetriableFailures (log : Log) (id : String) (t : Int) : Nat → Log
  | 0 => log
  | n + 1 => incrementNotificationAttempts (afterRetriableFailures log id t n) id t

/-- How one row evolves under `n` applications of
`IncrementNotificationAttempts` on its own id. -/
def bumpIter (n : Nat) (t : Int) (r : ManagedObject) : ManagedObject :=
  if n = 0 then r
  else { r with notificationAttempts := r.notificationAttempts + n,
                lastNotificationAttempt := some t }

/-- Modelled from the spec: the backoff formula
`min(initial_backoff × multiplier^attempts, max_backoff)` at zero jitter
(§4.3); the floating-point `calculateBackoff` in the source computes the same
value when `jitter = 0` and feeds it only into a WARN log line. -/
def specBackoff (rc : RetryConfig) (attempts : Nat) : Nat :=
  min (rc.initialBackoff * rc.backoffMultiplier ^ attempts) rc.maxBackoff

/-- `config.PayloadConfig`: the configured payload allow-lists. -/
structure PayloadConfig where
  annotations : List String
  labels : List String
  deriving Repr, DecidableEq

/-- The slice of `config.Config` the watcher reads:
`cfg.Annotation.Key` and (per the spec) `cfg.Payload`. -/
structure WatcherConfig where
  markerKey : String
  payload : PayloadConfig
  deriving Repr, DecidableEq

/-- The object metadata the extract functions read from a typed Pod or from
an unstructured object: `{uid, name, namespace, resource_version, labels,
annotations}`. -/
structure ResourceMeta where
  uid : String
  name : String
  ns : String
  resourceVersion : String
  labels : List (String × String)
  annotations : List (String × String)
  deriving Repr, DecidableEq

/-- First value bound to `key` in an association list (a Go map lookup). -/
def lookupKey (m : List (String × String)) (key : String) : Option String :=
  (m.find? fun kv => kv.1 = key).map Prod.snd

/-- `Watcher.extractFromPod` (`watcher.go`): marshals the pod's full label
map into the labels column, never writes the annotations column (it stays at
its zero value), stores the marker annotation's value, and fills the identity
fields; `cfg.payload` is not consulted anywhere in the body. -/
def extractFromPod (cfg : WatcherConfig) (pod : ResourceMeta)
    (resourceType : String) (freshID : String) (now : Int) : ManagedObject :=
  { id := freshID
    resourceUID := pod.uid
    resourceType := resourceType
    resourceName := pod.name
    resourceNamespace := pod.ns
    annotationValue := (lookupKey pod.annotations cfg.markerKey).getD ""
    clusterState := ""
    detectionSource := ""
    createdAt := now
    deletedAt := none
    lastReconciled := none
    notifiedCreated := false
    notifiedDeleted := false
    notificationFailed := false
    notificationFailedCode := 0
    createdNotificationSentAt := none
    deletedNotificationSentAt := none
    notificationAttempts := 0
    lastNotificationAttempt := none
    labels := pod.labels
    annotations := []
    resourceVersion := pod.resourceVersion }

/-- `Watcher.extractFromUnstructured` (`watcher.go`): identical to the Pod
path in every field the record keeps — full labels, no annotations, marker
value, identity — again without consulting `cfg.payload`. -/
def extractFromUnstructured (cfg : WatcherConfig) (obj : ResourceMeta)
    (resourceType : String) (freshID : String) (now : Int) : ManagedObject :=
  { id := freshID
    resourceUID := obj.uid
    resourceType := resourceType
    resourceName := obj.name
    resourceNamespace := obj.ns
    annotationValue := (lookupKey obj.annotations cfg.markerKey).getD ""
    clusterState := ""
    detectionSource := ""
    createdAt := now
    deletedAt := none
    lastReconciled := none
    notifiedCreated := false
    notifiedDeleted := false
    notificationFailed := false
    notificationFailedCode := 0
    createdNotificationSentAt := none
    deletedNotificationSentAt := none
    notificationAttempts := 0
    lastNotificationAttempt := none
    labels := obj.labels
    annotations := []
    resourceVersion := obj.resourceVersion }

/-- Restriction of a string map to an allow-list of keys. -/
def restrictKeys (allow : List String) (m : List (String × String)) :
    List (String × String) :=
  m.filter fun kv => allow.contains kv.1

/-- Modelled from the spec: the labels the record should keep — all of them
when the `payload.labels` allow-list is empty, otherwise only the listed keys
(§4.1). -/
def labelsPerSpec (allow : List String) (m : List (String × String)) :
    List (String × String) :=
  if allow = [] then m else restrictKeys allow m

/-- Modelled from the spec: the annotations the record should keep — none
when the `payload.annotations` allow-list is empty, otherwise only the listed
keys (§4.1). -/
def annotationsPerSpec (allow : List String) (m : List (String × String)) :
    List (String × String) :=
  if allow = [] then [] else restrictKeys allow m

/-- `Watcher.handleAdd` on an annotated object: the extract result with the
marker value, the detection source, and the `exists` state, which is then
inserted. -/
def handleAddRecord (cfg : WatcherConfig) (pod : ResourceMeta)
    (resourceType : String) (source : String) (freshID : String) (now : Int) :
    ManagedObject :=
  { extractFromPod cfg pod resourceType freshID now with
      annotationValue := (lookupKey pod.annotations cfg.markerKey).getD ""
      detectionSource := source
      clusterState := ClusterStateExists }

/-- One database mutation issued by `Reconciler.reconcileResource`. -/
inductive RecAction where
  | insertObj (obj : ManagedObject)
  | setDeleted (uid : String)
  | touch (id : String)
  deriving Repr, DecidableEq

/-- The `dbUIDMap` built by `reconcileResource`: a Go map keyed by
`resource_uid`, the later entry overwriting the earlier one. -/
def buildUIDMap (objs : List ManagedObject) : List (String × ManagedObject) :=
  objs.foldl
    (fun m o => m.filter (fun q => ¬ q.1 = o.resourceUID) ++ [(o.resourceUID, o)]) []

/-- The body of `Reconciler.reconcileResource` after the two listings:
given the cluster map (UID → transient extracted record, annotated objects
only) and the DB map, it inserts every cluster object absent from the DB map
(with `detection_source = reconciliation`, `cluster_state = exists`), marks
deleted every DB UID absent from the cluster, and touches `last_reconciled`
for every DB object still present — and performs no other mutation. -/
def reconcileActions (cluster dbMap : List (String × ManagedObject)) :
    List RecAction :=
  ((cluster.filter fun p => !(dbMap.any fun q => q.1 = p.1)).map fun p =>
      RecAction.insertObj
        { p.2 with detectionSource := DetectionSourceReconciliation,
                   clusterState := ClusterStateExists })
    ++ ((dbMap.filter fun p => !(cluster.any fun q => q.1 = p.1)).map fun p =>
      RecAction.setDeleted p.1)
    ++ ((dbMap.filter fun p => cluster.any fun q => q.1 = p.1).map fun p =>
      RecAction.touch p.2.id)

/-- `Cleaner.Cleanup`: fetch the eligible rows, then `DeleteRecord` each of
them (the model runs the pass to completion). -/
def cleanup (log : Log) (now retentionPeriod : Int) : Log :=
  (getCleanupEligible log now retentionPeriod).foldl
    (fun l o => deleteRecord l o.id) log

/-- A record as every pipeline producer inserts it: the watcher's
`handleAdd` (zero-valued delivery flags from the extract functions,
`cluster_state` set to `exists`) and the reconciler's missed-creation insert
(zero-valued flags from `listPods` / `listDynamic`, `cluster_state` set to
`exists`). -/
def FreshRecord (r : ManagedObject) : Prop :=
  r.notifiedCreated = false ∧ r.notifiedDeleted = false ∧
    r.notificationFailed = false ∧ r.notificationAttempts = 0 ∧
    r.clusterState = ClusterStateExists

/-- One transition of the durable log under the pipeline: an insert by the
observer or reconciler (always a fresh record, and only when the `id` key is
new), a deletion-state transition (observer `handleUpdate` / `handleDelete`,
reconciler missed deletion — the only callers of `UpdateClusterState`), a
successful delivery of the transition `processNotification` selects for a
fetched record, an attempt bump, a terminal failure mark, a reconciler touch,
or a cleaner row deletion. -/
inductive Step : Log → Log → Prop where
  | insert (log : Log) (obj : ManagedObject) (log2 : Log)
      (fresh : FreshRecord obj)
      (h : insertManagedObject log obj = some log2) : Step log log2
  | stateDeleted (log : Log) (uid : String) (t : Int) :
      Step log (updateClusterState log uid ClusterStateDeleted (some t))
  | deliverSuccess (log : Log) (obj : ManagedObject) (ev : String) (t : Int)
      (log2 : Log) (hmem : obj ∈ log) (hsel : selectEventType obj = some ev)
      (h : updateNotificationStatus log obj.id ev t = some log2) : Step log log2
  | bump (log : Log) (id : String) (t : Int) :
      Step log (incrementNotificationAttempts log id t)
  | terminal (log : Log) (id : String) (code : Int) :
      Step log (markNotificationFailed log id code)
  | reconciled (log : Log) (id : String) (t : Int) :
      Step log (updateLastReconciled log id t)
  | cleaned (log : Log) (id : String) :
      Step log (deleteRecord log id)

/-- The log states reachable by the pipeline from the empty table. -/
def Reachable (log : Log) : Prop :=
  Relation.ReflTransGen Step [] log

/-- The internal `id` column is duplicate-free. -/
def IdsNodup (log : Log) : Prop :=
  (log.map fun r => r.id).Nodup

/-- Spec §8 invariant 2 on a log: `notified_deleted ⇒ notified_created`
row-wise. -/
def NotifyInv (log : Log) : Prop :=
  ∀ r ∈ log, r.notifiedDeleted = true → r.notifiedCreated = true

/-- A sample freshly observed record (the state `handleAdd` inserts). -/
def baseRecord : ManagedObject :=
  { id := "id-1"
    resourceUID := "uid-1"
    resourceType := "Pod"
    resourceName := "p"
    resourceNamespace := "d"
    annotationValue := "v"
    clusterState := ClusterStateExists
    detectionSource := DetectionSourceWatch
    createdAt := 0
    deletedAt := none
    lastReconciled := none
    notifiedCreated := false
    notifiedDeleted := false
    notificationFailed := false
    notificationFailedCode := 0
    createdNotificationSentAt := none
    deletedNotificationSentAt := none
    notificationAttempts := 0
    lastNotificationAttempt := none
    labels := []
    annotations := []
    resourceVersion := "rv" }

/-- A second record that duplicates `baseRecord`'s `resource_uid` under a
fresh `id` (a re-observation after a reconnect). -/
def dupUIDRecord : ManagedObject :=
  { baseRecord with id := "id-2", createdAt := 1 }

/-- A record mid-retry: three delivery attempts so far, the last at time
1000, creation still unnotified. -/
def retryingRecord : ManagedObject :=
  { baseRecord with notificationAttempts := 3, lastNotificationAttempt := some 1000 }

/-- A retry configuration with `initial_backoff = 1s`, `multiplier = 2`,
`max_backoff = 300s`, zero jitter, `maxAttempts = 10`. -/
def sampleRetry : RetryConfig :=
  { maxAttempts := 10, initialBackoff := 1, maxBackoff := 300
    backoffMultiplier := 2, jitter := 0 }

/-- A sample worker configuration. -/
def sampleConfig : Config :=
  { appVersion := "0.1.0-test"
    authToken := ""
    endpoint := { url := "https://example.com/webhook", timeout := 5
                  retry := sampleRetry, headers := [] }
    worker := { pollInterval := 5, batchSize := 10, concurrency := 5 } }

/-- `sampleConfig` with a configured `Content-Type` endpoint header. -/
def overrideConfig : Config :=
  { sampleConfig with endpoint :=
      { sampleConfig.endpoint with headers := [("Content-Type", "text/plain")] } }

/-- Sample observed pod metadata with two labels and two annotations. -/
def samplePod : ResourceMeta :=
  { uid := "uid-9"
    name := "p9"
    ns := "d"
    resourceVersion := "9"
    labels := [("app", "x"), ("env", "y")]
    annotations := [("mk", "on"), ("cust", "C1")] }

/-- A watcher configuration with payload allow-lists
`labels = [app]`, `annotations = [cust]`. -/
def sampleWatcherCfg : WatcherConfig :=
  { markerKey := "mk", payload := { annotations := ["cust"], labels := ["app"] } }

/-! ## Shared lemmas about the durable log -/

theorem ids_map_of_preserve (log : Log) (f : ManagedObject → ManagedObject)
    (hf : ∀ r, (f r).id = r.id) :
    ((log.map f).map fun r => r.id) = log.map fun r => r.id := by
  rw [List.map_map]
  exact List.map_congr_left fun r _ => hf r

theorem idsNodup_map (log : Log) (f : ManagedObject → ManagedObject)
    (hf : ∀ r, (f r).id = r.id) (h : IdsNodup log) : IdsNodup (log.map f) := by
  unfold IdsNodup
  rw [ids_map_of_preserve log f hf]
  exact h

theorem idsNodup_filter (log : Log) (p : ManagedObject → Bool)
    (h : IdsNodup log) : IdsNodup (log.filter p) := by
  unfold IdsNodup at h ⊢
  exact ((log.filter_sublist).map fun r => r.id).nodup h

theorem notifyInv_map (log : Log) (f : ManagedObject → ManagedObject)
    (hf : ∀ r ∈ log, (r.notifiedDeleted = true → r.notifiedCreated = true) →
      ((f r).notifiedDeleted = true → (f r).notifiedCreated = true))
    (h : NotifyInv log) : NotifyInv (log.map f) := by
  intro r hr
  obtain ⟨r0, hr0, rfl⟩ := List.mem_map.mp hr
  exact hf r0 hr0 (h r0 hr0)

theorem notifyInv_filter (log : Log) (p : ManagedObject → Bool)
    (h : NotifyInv log) : NotifyInv (log.filter p) :=
  fun r hr => h r (List.mem_of_mem_filter hr)

/-- Case analysis on the transition `processNotification` selects. -/
theorem selectEventType_cases (obj : ManagedObject) (ev : String)
    (h : selectEventType obj = some ev) :
    (ev = "created" ∧ obj.notifiedCreated = false) ∨
      (ev = "deleted" ∧ obj.notifiedCreated = true ∧
        obj.clusterState = ClusterStateDeleted ∧ obj.notifiedDeleted = false) := by
  unfold selectEventType at h
  by_cases h1 : obj.notifiedCreated
  · simp [h1] at h
    by_cases h2 : obj.clusterState = ClusterStateDeleted
    · by_cases h3 : obj.notifiedDeleted
      · simp [h2, h3] at h
      · simp [h2, h3] at h
        exact Or.inr ⟨h.symm, h1, h2, by simp [h3]⟩
    · simp [h2] at h
  · simp [h1] at h
    exact Or.inl ⟨h.symm, by simp [h1]⟩

/-- Membership across a cleaner pass: a row survives the fold of
`DeleteRecord` over a batch exactly when its `id` collides with none of the
batch. -/
theorem mem_foldl_deleteRecord (es : List ManagedObject) (log : Log)
    (r : ManagedObject) :
    r ∈ es.foldl (fun l o => deleteRecord l o.id) log ↔
      r ∈ log ∧ ∀ o ∈ es, ¬ r.id = o.id := by
  induction es generalizing log with
  | nil => simp
  | cons e es ih =>
    rw [List.foldl_cons, ih]
    unfold deleteRecord
    simp only [List.mem_filter, List.mem_cons, decide_not, decide_eq_true_eq,
      Bool.not_eq_true', decide_eq_false_iff_not]
    constructor
    · rintro ⟨⟨hr, hne⟩, hall⟩
      exact ⟨hr, fun o ho => ho.elim (fun h => h ▸ hne) (hall o)⟩
    · rintro ⟨hr, hall⟩
      exact ⟨⟨hr, hall e (Or.inl rfl)⟩, fun o ho => hall o (Or.inr ho)⟩

/-! ## The pipeline invariant -/

/-- Every pipeline-reachable log has duplicate-free `id`s and satisfies
`notified_deleted ⇒ notified_created` row-wise. -/
theorem reachable_invariant (log : Log) (h : Reachable log) :
    IdsNodup log ∧ NotifyInv log := by
  unfold Reachable at h
  induction h with
  | refl => exact ⟨List.nodup_nil, fun r hr => absurd hr (List.not_mem_nil r)⟩
  | @tail b c _ hstep ih =>
    obtain ⟨hnd, hinv⟩ := ih
    cases hstep with
    | insert obj log2 fresh h =>
      unfold insertManagedObject at h
      split at h
      · exact absurd h (by simp)
      · next hany =>
        obtain rfl : b ++ [obj] = c := Option.some.inj h
        have hfreshid : ∀ r ∈ b, ¬ r.id = obj.id := by
          intro r hr
          have := List.any_eq_false.mp (Bool.not_eq_true _ ▸ hany) r hr
          simpa using this
        constructor
        · unfold IdsNodup
          rw [List.map_append]
          refine (hnd.append (List.nodup_singleton _)) ?_
          intro a ha hb
          obtain ⟨r, hr, rfl⟩ := List.mem_map.mp ha
          simp only [List.map_cons, List.map_nil, List.mem_singleton] at hb
          exact hfreshid r hr hb
        · intro r hr
          rcases List.mem_append.mp hr with h1 | h1
          · exact hinv r h1
          · simp only [List.mem_singleton] at h1
            subst h1
            rw [fresh.2.1]
            intro hcontra
            cases hcontra
    | stateDeleted uid t =>
      refine ⟨idsNodup_map b _ (fun r => ?_) hnd, notifyInv_map b _ (fun r _ => ?_) hinv⟩
      · split <;> rfl
      · intro himp
        split <;> exact himp
    | deliverSuccess obj ev t log2 hmem hsel h =>
      rcases selectEventType_cases obj ev hsel with ⟨rfl, _⟩ | ⟨rfl, hcr, _, _⟩
      · unfold updateNotificationStatus at h
        simp only [if_pos rfl] at h
        obtain rfl : _ = c := Option.some.inj h
        refine ⟨idsNodup_map b _ (fun r => ?_) hnd, notifyInv_map b _ (fun r _ => ?_) hinv⟩
        · split <;> rfl
        · intro himp
          split
          · simp
          · exact himp
      · unfold updateNotificationStatus at h
        have hne : ¬ ("deleted" : String) = "created" := by decide
        rw [if_neg hne, if_pos rfl] at h
        obtain rfl : _ = c := Option.some.inj h
        refine ⟨idsNodup_map b _ (fun r => ?_) hnd, ?_⟩
        · split <;> rfl
        · intro r hr
          obtain ⟨r0, hr0, rfl⟩ := List.mem_map.mp hr
          split
          · next hid =>
            have : r0 = obj :=
              List.inj_on_of_nodup_map hnd hr0 hmem hid
            subst this
            simp [hcr]
          · exact fun hd => hinv r0 hr0 hd
    | bump id t =>
      refine ⟨idsNodup_map b _ (fun r => ?_) hnd, notifyInv_map b _ (fun r _ => ?_) hinv⟩
      · split <;> rfl
      · intro himp
        split <;> exact himp
    | terminal id code =>
      refine ⟨idsNodup_map b _ (fun r => ?_) hnd, notifyInv_map b _ (fun r _ => ?_) hinv⟩
      · split <;> rfl
      · intro himp
        split <;> exact himp
    | reconciled id t =>
      refine ⟨idsNodup_map b _ (fun r => ?_) hnd, notifyInv_map b _ (fun r _ => ?_) hinv⟩
      · split <;> rfl
      · intro himp
        split <;> exact himp
    | cleaned id =>
      exact ⟨idsNodup_filter b _ hnd, notifyInv_filter b _ hinv⟩

/-! ## C2 — the `fetch_pending` contract -/

/-- C2: `GetPendingNotifications(limit)` returns exactly the records
satisfying `(¬notified_created ∨ (cluster_state = deleted ∧
¬notified_deleted)) ∧ ¬notification_failed`: every returned record is such a
record of the log, whenever the pending rows fit the limit all of them are
returned (as a permutation of the pending rows), at most `limit` records are
returned, and the result is in non-decreasing `created_at` order. -/
theorem C2_fetch_pending_contract (log : Log) (limit : Nat) :
    (∀ r ∈ getPendingNotifications log limit,
      r ∈ log ∧ ((r.notifiedCreated = false ∨
          (r.clusterState = ClusterStateDeleted ∧ r.notifiedDeleted = false)) ∧
        r.notificationFailed = false)) ∧
    ((log.filter isPending).length ≤ limit →
      List.Perm (getPendingNotifications log limit) (log.filter isPending)) ∧
    (getPendingNotifications log limit).length =
      min (log.filter isPending).length limit ∧
    (getPendingNotifications log limit).Sorted createdLE := by
  have hperm := List.perm_insertionSort createdLE (log.filter isPending)
  refine ⟨?_, ?_, ?_, ?_⟩
  · intro r hr
    have hr1 : r ∈ List.insertionSort createdLE (log.filter isPending) :=
      List.mem_of_mem_take hr
    have hr2 : r ∈ log.filter isPending := hperm.mem_iff.mp hr1
    refine ⟨List.mem_of_mem_filter hr2, ?_⟩
    have hp : isPending r = true := List.of_mem_filter hr2
    unfold isPending at hp
    simp only [Bool.and_eq_true, Bool.or_eq_true, Bool.not_eq_true',
      decide_eq_true_eq] at hp
    exact ⟨hp.1.imp id (fun hd => ⟨hd.1, hd.2⟩), hp.2⟩
  · intro hle
    unfold getPendingNotifications
    rw [List.take_of_length_le (by rw [hperm.length_eq]; exact hle)]
    exact hperm
  · unfold getPendingNotifications
    rw [List.length_take, hperm.length_eq]
    exact Nat.min_comm _ _
  · exact List.Pairwise.sublist (List.take_sublist _ _)
      (List.sorted_insertionSort createdLE _)

/-- Witness for C2 at a concrete one-row log. -/
theorem C2_fetch_pending_contract_witness :
    List.Perm (getPendingNotifications [baseRecord] 1) ([baseRecord].filter isPending) ∧
      (getPendingNotifications [baseRecord] 1).Sorted createdLE :=
  ⟨(C2_fetch_pending_contract [baseRecord] 1).2.1 (by decide),
    (C2_fetch_pending_contract [baseRecord] 1).2.2.2⟩

/-! ## C1 — response classification in the delivery worker -/

/-- The retriable status set, spelled out. -/
theorem isRetriable_iff (c : Int) :
    isRetriable c = true ↔
      (c = 408 ∨ c = 429 ∨ c = 500 ∨ c = 502 ∨ c = 503 ∨ c = 504) := by
  unfold isRetriable
  simp only [Bool.or_eq_true, decide_eq_true_eq]
  tauto

/-- C1: `handleResponse` classifies every outcome exactly as specified — a
2xx status performs only `UpdateNotificationStatus` for the record's id and
current transition; a status in {408, 429, 500, 502, 503, 504} or any
transport/timeout error performs only `IncrementNotificationAttempts`; any
other status logs the serialised envelope at ERROR level and performs only
`MarkNotificationFailed` with that status — and a record so marked is never
again returned by the pending query, so no further delivery attempt is made
for it. -/
theorem C1_handle_response_classification (obj : ManagedObject)
    (ev nowText : String) (code : Int) :
    (handleResponse obj ev .transportError nowText = (.bumpAttempt obj.id, none)) ∧
    (200 ≤ code → code < 300 →
      handleResponse obj ev (.status code) nowText =
        (.markDelivered obj.id ev, none)) ∧
    ((code = 408 ∨ code = 429 ∨ code = 500 ∨ code = 502 ∨ code = 503 ∨
        code = 504) →
      handleResponse obj ev (.status code) nowText = (.bumpAttempt obj.id, none)) ∧
    (¬ (200 ≤ code ∧ code < 300) →
      ¬ (code = 408 ∨ code = 429 ∨ code = 500 ∨ code = 502 ∨ code = 503 ∨
          code = 504) →
      handleResponse obj ev (.status code) nowText =
        (.markTerminal obj.id code,
          some (payloadJson (buildPayload obj ev nowText)).render)) ∧
    (∀ log limit r, r ∈ getPendingNotifications
        (markNotificationFailed log obj.id code) limit → ¬ r.id = obj.id) := by
  have hretr := isRetriable_iff
  refine ⟨rfl, ?_, ?_, ?_, ?_⟩
  · intro h1 h2
    simp [handleResponse, h1, h2]
  · intro h
    have h2x : ¬ (200 ≤ code ∧ code < 300) := by
      rcases h with h | h | h | h | h | h <;> subst h <;> omega
    have hr : isRetriable code = true := (hretr code).mpr h
    simp [handleResponse, h2x, hr]
  · intro h2x hnr
    have hr : isRetriable code = false := by
      by_contra hc
      exact hnr ((hretr code).mp (by simpa using hc))
    simp [handleResponse, h2x, hr]
  · intro log limit r hr
    have hr1 : r ∈ List.insertionSort createdLE
        ((markNotificationFailed log obj.id code).filter isPending) :=
      List.mem_of_mem_take hr
    have hr2 : r ∈ (markNotificationFailed log obj.id code).filter isPending :=
      (List.perm_insertionSort createdLE _).mem_iff.mp hr1
    have hp : isPending r = true := List.of_mem_filter hr2
    have hmem : r ∈ markNotificationFailed log obj.id code :=
      List.mem_of_mem_filter hr2
    obtain ⟨r0, _, rfl⟩ := List.mem_map.mp hmem
    intro hid
    by_cases h0 : r0.id = obj.id
    · simp only [if_pos h0] at hp hid ⊢
      unfold isPending at hp
      simp at hp
    · simp only [if_neg h0] at hid
      exact h0 hid

/-- Witness for C1 at status 404 on the sample record. -/
theorem C1_handle_response_classification_witness :
    handleResponse baseRecord "created" (.status 404) "T" =
      (.markTerminal baseRecord.id 404,
        some (payloadJson (buildPayload baseRecord "created" "T")).render) :=
  (C1_handle_response_classification baseRecord "created" "T" 404).2.2.2.1
    (by decide) (by decide)

/-! ## C3 — duplicate `resource_uid` inserts -/

/-- C3 (the claim is violated by the code): inserting a record whose
`resource_uid` equals that of an already-stored record is not a no-op — the
insert succeeds (only the `id` PRIMARY KEY is constrained) and the log grows
to two records carrying the same `resource_uid`. -/
theorem C3_duplicate_uid_insert_not_noop :
    insertManagedObject [baseRecord] dupUIDRecord =
        some [baseRecord, dupUIDRecord] ∧
      dupUIDRecord.resourceUID = baseRecord.resourceUID ∧
      ¬ insertManagedObject [baseRecord] dupUIDRecord = some [baseRecord] := by
  refine ⟨by decide, by decide, ?_⟩
  intro h
  have := Option.some.inj h
  simp at this

/-! ## C6 — transition selection and the created-before-deleted invariant -/

/-- C6: `processNotification` selects the `created` transition whenever
`¬notified_created` (regardless of the cluster state, in particular when it
is already `deleted`), selects `deleted` only when `notified_created` ∧
`cluster_state = deleted` ∧ `¬notified_deleted`, and otherwise returns
without building a request; consequently every pipeline-reachable log
satisfies `notified_deleted ⇒ notified_created` row-wise. -/
theorem C6_transition_selection_and_order :
    (∀ obj : ManagedObject,
      (obj.notifiedCreated = false → selectEventType obj = some "created") ∧
      (obj.notifiedCreated = true → obj.clusterState = ClusterStateDeleted →
        obj.notifiedDeleted = false → selectEventType obj = some "deleted") ∧
      (obj.notifiedCreated = true →
        (¬ obj.clusterState = ClusterStateDeleted ∨ obj.notifiedDeleted = true) →
        selectEventType obj = none)) ∧
    (∀ log, Reachable log →
      ∀ r ∈ log, r.notifiedDeleted = true → r.notifiedCreated = true) := by
  constructor
  · intro obj
    refine ⟨?_, ?_, ?_⟩
    · intro h
      simp [selectEventType, h]
    · intro h1 h2 h3
      simp [selectEventType, h1, h2, h3]
    · intro h1 h2
      rcases h2 with h2 | h2
      · simp [selectEventType, h1, h2]
      · simp [selectEventType, h1, h2]
  · intro log h r hr
    exact (reachable_invariant log h).2 r hr

/-- Witness for C6 on the sample record and on the one-insert reachable log. -/
theorem C6_transition_selection_and_order_witness :
    selectEventType baseRecord = some "created" ∧
      (∀ r ∈ [baseRecord], r.notifiedDeleted = true → r.notifiedCreated = true) :=
  ⟨(C6_transition_selection_and_order.1 baseRecord).1 (by decide),
    C6_transition_selection_and_order.2 [baseRecord]
      (Relation.ReflTransGen.single
        (Step.insert [] baseRecord [baseRecord] ⟨rfl, rfl, rfl, rfl, rfl⟩ (by decide)))⟩

/-! ## C7 — cleanup eligibility and the cleaner -/

/-- C7: over every pipeline-reachable log, a record is returned by
`GetCleanupEligible` — equivalently, is removed by a Cleaner pass — exactly
when it is fully terminal: `cluster_state = deleted`, both notifications
delivered, not terminally failed, and `deleted_at` older than
`now − retention`; in particular a record with `notification_failed = true`
is never eligible and survives every Cleaner pass, for every retention
value. -/
theorem C7_cleanup_eligibility (log : Log) (h : Reachable log)
    (now retention : Int) (r : ManagedObject) :
    (r ∈ getCleanupEligible log now retention ↔
      (r ∈ log ∧ r.clusterState = ClusterStateDeleted ∧
        r.notifiedCreated = true ∧ r.notifiedDeleted = true ∧
        r.notificationFailed = false ∧
        ∃ d, r.deletedAt = some d ∧ d < now - retention)) ∧
    (r ∈ log →
      (¬ r ∈ cleanup log now retention ↔
        r ∈ getCleanupEligible log now retention)) ∧
    (r ∈ log → r.notificationFailed = true →
      ¬ r ∈ getCleanupEligible log now retention ∧
        r ∈ cleanup log now retention) := by
  obtain ⟨hnd, hinv⟩ := reachable_invariant log h
  have hmemElig : ∀ s : ManagedObject, s ∈ getCleanupEligible log now retention ↔
      (s ∈ log ∧ s.clusterState = ClusterStateDeleted ∧ s.notifiedDeleted = true ∧
        s.notificationFailed = false ∧ ∃ d, s.deletedAt = some d ∧ d < now - retention) := by
    intro s
    unfold getCleanupEligible isCleanupEligible
    rw [List.mem_filter]
    rcases hdel : s.deletedAt with _ | d <;>
      simp only [hdel, Bool.and_eq_true, Bool.not_eq_true', decide_eq_true_eq,
        Option.some.injEq, reduceCtorEq]
    · constructor
      · intro hb
        exact absurd hb.2.2 (by simp)
      · rintro ⟨_, _, _, _, _, h4, _⟩
        cases h4
    · constructor
      · intro hb
        exact ⟨hb.1, hb.2.1.1.1, hb.2.1.1.2, hb.2.1.2, d, rfl, hb.2.2⟩
      · rintro ⟨hs, h1, h2, h3, d2, h4, h5⟩
        cases h4
        exact ⟨hs, ⟨⟨h1, h2⟩, h3⟩, h5⟩
  have hcleanup : ∀ s : ManagedObject, s ∈ cleanup log now retention ↔
      (s ∈ log ∧ ∀ o ∈ getCleanupEligible log now retention, ¬ s.id = o.id) := by
    intro s
    unfold cleanup
    exact mem_foldl_deleteRecord _ log s
  refine ⟨?_, ?_, ?_⟩
  · rw [hmemElig r]
    constructor
    · rintro ⟨hs, h1, h2, h3, h4⟩
      exact ⟨hs, h1, hinv r hs h2, h2, h3, h4⟩
    · rintro ⟨hs, h1, _, h2, h3, h4⟩
      exact ⟨hs, h1, h2, h3, h4⟩
  · intro hr
    constructor
    · intro hnc
      rw [hcleanup r] at hnc
      push_neg at hnc
      obtain ⟨o, ho, hid⟩ := hnc hr
      have hro : r = o := by
        have homem : o ∈ log := ((hmemElig o).mp ho).1
        exact List.inj_on_of_nodup_map hnd hr homem hid
      rw [hro]
      exact ho
    · intro he hc
      rw [hcleanup r] at hc
      exact hc.2 r he rfl
  · intro hr hfail
    have hne : ¬ r ∈ getCleanupEligible log now retention := by
      intro hc
      rw [hmemElig r] at hc
      rw [hfail] at hc
      exact absurd hc.2.2.2.1 (by simp)
    refine ⟨hne, ?_⟩
    rw [hcleanup r]
    refine ⟨hr, ?_⟩
    intro o ho hid
    have homem : o ∈ log := ((hmemElig o).mp ho).1
    have : r = o := List.inj_on_of_nodup_map hnd hr homem hid
    rw [← this] at ho
    exact hne ho

/-- Witness for C7: on the reachable one-record log the live, unfailed sample
record is not eligible and survives the pass. -/
theorem C7_cleanup_eligibility_witness :
    ¬ baseRecord ∈ getCleanupEligible [baseRecord] 100 1 ∧
      baseRecord ∈ cleanup [baseRecord] 100 1 := by
  have hreach : Reachable [baseRecord] :=
    Relation.ReflTransGen.single
      (Step.insert [] baseRecord [baseRecord] ⟨rfl, rfl, rfl, rfl, rfl⟩ (by decide))
  have h := C7_cleanup_eligibility [baseRecord] hreach 100 1 baseRecord
  have hne : ¬ baseRecord ∈ getCleanupEligible [baseRecord] 100 1 := by
    intro hc
    have := (h.1.mp hc).2.1
    revert this
    decide
  refine ⟨hne, ?_⟩
  by_contra hc
  exact hne ((h.2.1 (by decide)).mp hc)

/-! ## C10 — retriable failures retry without bound -/

/-- On a one-row log, `n` retriable failures evolve the row to `bumpIter`. -/
theorem afterRetriableFailures_singleton (r : ManagedObject) (t : Int) :
    ∀ n, afterRetriableFailures [r] r.id t n = [bumpIter n t r]
  | 0 => by
    simp [afterRetriableFailures, bumpIter]
  | n + 1 => by
    rw [afterRetriableFailures, afterRetriableFailures_singleton r t n]
    unfold incrementNotificationAttempts
    simp only [List.map_cons, List.map_nil]
    have hid : (bumpIter n t r).id = r.id := by
      unfold bumpIter
      split <;> rfl
    rw [if_pos hid]
    cases n with
    | zero => simp [bumpIter]
    | succ m =>
      simp only [bumpIter, Nat.succ_ne_zero, if_neg, ite_false, reduceIte]
      simp [Nat.add_assoc]

/-- C10: after `n ≥ 0` consecutive retriable failures (retriable status or
transport error) the worker has issued only `bump_attempt` — never
`mark_terminal`, and never the ERROR envelope dump; the record's
`notification_failed` flag and pending status are unchanged (its attempt
counter grows by `n`), so it is again returned by `fetch_pending` on a later
poll; and neither the classification (which ignores the attempt counter) nor
the per-poll work set consults `endpoint.retry.maxAttempts`, so retries
continue without bound. -/
theorem C10_retriable_failures_unbounded (obj : ManagedObject)
    (ev nowText : String) (outcome : DeliveryOutcome) (cfg : Config)
    (log : Log) (r : ManagedObject) (t : Int) (n : Nat) :
    ((outcome = .transportError ∨
        ∃ c, outcome = .status c ∧ isRetriable c = true) →
      handleResponse obj ev outcome nowText = (.bumpAttempt obj.id, none)) ∧
    (∀ k, handleResponse { obj with notificationAttempts := k } ev outcome nowText =
      handleResponse obj ev outcome nowText) ∧
    (∀ k, pollProcessed log (setMaxAttempts cfg k) = pollProcessed log cfg) ∧
    (bumpIter n t r).notificationFailed = r.notificationFailed ∧
    isPending (bumpIter n t r) = isPending r ∧
    (¬ n = 0 → (bumpIter n t r).notificationAttempts =
      r.notificationAttempts + n) ∧
    (isPending r = true →
      bumpIter n t r ∈
        getPendingNotifications (afterRetriableFailures [r] r.id t n) 1) := by
  have hfail : (bumpIter n t r).notificationFailed = r.notificationFailed := by
    unfold bumpIter
    split <;> rfl
  have hpend : isPending (bumpIter n t r) = isPending r := by
    unfold isPending bumpIter
    split <;> rfl
  refine ⟨?_, ?_, ?_, hfail, hpend, ?_, ?_⟩
  · rintro (rfl | ⟨c, rfl, hc⟩)
    · rfl
    · have h2x : ¬ (200 ≤ c ∧ c < 300) := by
        rcases (isRetriable_iff c).mp hc with h | h | h | h | h | h <;>
          subst h <;> omega
      simp [handleResponse, h2x, hc]
  · intro k
    cases outcome <;> rfl
  · intro k
    rfl
  · intro hn
    unfold bumpIter
    rw [if_neg hn]
  · intro hp
    rw [afterRetriableFailures_singleton r t n]
    have hp2 : isPending (bumpIter n t r) = true := by rw [hpend]; exact hp
    unfold getPendingNotifications
    simp [hp2, List.insertionSort, List.orderedInsert]

/-- Witness for C10: three transport-error failures on the sample record. -/
theorem C10_retriable_failures_unbounded_witness :
    handleResponse baseRecord "created" .transportError "T" =
        (.bumpAttempt baseRecord.id, none) ∧
      bumpIter 3 5 baseRecord ∈
        getPendingNotifications
          (afterRetriableFailures [baseRecord] baseRecord.id 5 3) 1 :=
  ⟨(C10_retriable_failures_unbounded baseRecord "created" "T" .transportError
      sampleConfig [] baseRecord 5 3).1 (Or.inl rfl),
    (C10_retriable_failures_unbounded baseRecord "created" "T" .transportError
      sampleConfig [] baseRecord 5 3).2.2.2.2.2.2 (by decide)⟩

/-! ## C4 — no backoff-based exclusion from work -/

/-- C4 is violated by the code: a record whose third retriable failure
happened at time 1000 is, per the spec's `min(initial × multiplier^n, max)`
backoff (zero jitter: 1s × 2³ = 8s), not due again before 1008; yet at time
1001 the record is still returned by the pending query (which never reads
`last_notification_attempt`) and `poll` processes every fetched record, so a
delivery attempt is made. -/
theorem C4_backoff_not_enforced_counterexample :
    (1001 : Int) < 1000 + (specBackoff sampleRetry
        retryingRecord.notificationAttempts : Int) ∧
      retryingRecord.lastNotificationAttempt = some 1000 ∧
      retryingRecord ∈ pollProcessed [retryingRecord] sampleConfig ∧
      (selectEventType retryingRecord).isSome = true := by
  refine ⟨by decide, by decide, ?_, by decide⟩
  unfold pollProcessed getPendingNotifications
  simp [List.insertionSort, List.orderedInsert, isPending, retryingRecord,
    baseRecord, sampleConfig]

/-- C4 amended: the Delivery Worker performs no backoff-based exclusion at
all — the set of records processed in a tick is exactly the `fetch_pending`
result, and the pending predicate is independent of
`last_notification_attempt` and of the attempt counter, so a record whose
`last_attempt_at + backoff(attempts)` lies in the future is fetched and
attempted all the same; the spacing between attempts is bounded below only by
the poll cadence (`calculateBackoff` feeds a log line only). -/
theorem C4_no_backoff_exclusion_amended (log : Log) (cfg : Config)
    (r : ManagedObject) (ts : Option Int) (k : Nat) :
    (r ∈ pollProcessed log cfg ↔
      r ∈ getPendingNotifications log cfg.worker.batchSize) ∧
    isPending { r with lastNotificationAttempt := ts, notificationAttempts := k }
      = isPending r :=
  ⟨Iff.rfl, rfl⟩

/-! ## C5 — the wire format is not a CloudEvents envelope -/

/-- C5 is violated by the code: the request body built from a record is the
flat `models.NotificationPayload` JSON — top-level keys `id`, `timestamp`,
`eventType`, `resource`, `metadata`, with no `specversion`, `source`,
`type`, `subject` or `datacontenttype` attribute — and the `Content-Type`
header is `application/json`, not
`application/cloudevents+json; charset=UTF-8`; moreover the configured
endpoint headers are applied after the fixed ones, so a configured
`Content-Type` does override it. -/
theorem C5_wire_format_divergence :
    (payloadJson (buildPayload baseRecord "created" "T")).topKeys =
        ["id", "timestamp", "eventType", "resource", "metadata"] ∧
      ¬ "specversion" ∈
        (payloadJson (buildPayload baseRecord "created" "T")).topKeys ∧
      ¬ "source" ∈ (payloadJson (buildPayload baseRecord "created" "T")).topKeys ∧
      getHeader (buildRequest sampleConfig
          (buildPayload baseRecord "created" "T") "rid").headers "Content-Type" =
        some "application/json" ∧
      ¬ getHeader (buildRequest sampleConfig
          (buildPayload baseRecord "created" "T") "rid").headers "Content-Type" =
        some "application/cloudevents+json; charset=UTF-8" ∧
      getHeader (buildRequest overrideConfig
          (buildPayload baseRecord "created" "T") "rid").headers "Content-Type" =
        some "text/plain" := by
  refine ⟨?_, by decide, by decide, ?_, ?_, ?_⟩ <;>
    simp [payloadJson, buildPayload, buildRequest, setHeader, getHeader,
      metadataJson, Json.topKeys, baseRecord, sampleConfig, overrideConfig,
      List.find?]

/-! ## C9 — the payload allow-lists are ignored at extraction -/

/-- C9 is violated by the code: with `payload.labels = [app]` and
`payload.annotations = [cust]` configured, the extract functions still store
the pod's full label map and store no annotations at all — their results do
not depend on `cfg.payload` in any way — whereas the claim requires the
stored labels to be the restriction `[(app, x)]` and the stored annotations
the restriction `[(cust, C1)]`. -/
theorem C9_extract_ignores_allow_lists :
    (extractFromPod sampleWatcherCfg samplePod "Pod" "id-9" 0).labels =
        samplePod.labels ∧
      (extractFromPod sampleWatcherCfg samplePod "Pod" "id-9" 0).annotations = [] ∧
      labelsPerSpec sampleWatcherCfg.payload.labels samplePod.labels =
        [("app", "x")] ∧
      annotationsPerSpec sampleWatcherCfg.payload.annotations
          samplePod.annotations = [("cust", "C1")] ∧
      ¬ (extractFromPod sampleWatcherCfg samplePod "Pod" "id-9" 0).labels =
        labelsPerSpec sampleWatcherCfg.payload.labels samplePod.labels ∧
      ¬ (extractFromPod sampleWatcherCfg samplePod "Pod" "id-9" 0).annotations =
        annotationsPerSpec sampleWatcherCfg.payload.annotations
          samplePod.annotations ∧
      (∀ (key : String) (p q : PayloadConfig) (pod : ResourceMeta)
          (rt i : String) (n : Int),
        extractFromPod { markerKey := key, payload := p } pod rt i n =
          extractFromPod { markerKey := key, payload := q } pod rt i n) ∧
      (∀ (key : String) (p q : PayloadConfig) (obj : ResourceMeta)
          (rt i : String) (n : Int),
        extractFromUnstructured { markerKey := key, payload := p } obj rt i n =
          extractFromUnstructured { markerKey := key, payload := q } obj rt i n) ∧
      (∀ (cfg : WatcherConfig) (pod obj : ResourceMeta) (rt i : String) (n : Int),
        pod = obj →
          extractFromPod cfg pod rt i n = extractFromUnstructured cfg obj rt i n) :=
  ⟨by decide, rfl, by decide, by decide, by decide, by decide,
    fun _ _ _ _ _ _ _ => rfl, fun _ _ _ _ _ _ _ => rfl,
    fun _ _ _ _ _ _ h => by rw [h]; rfl⟩

/-! ## C8 — the reconciliation diff -/

/-- The key set of the Go map `dbUIDMap` is exactly the `resource_uid` set of
the rows it was built from. -/
theorem mem_buildUIDMap_keys (objs : List ManagedObject) (u : String) :
    u ∈ (buildUIDMap objs).map Prod.fst ↔ ∃ r ∈ objs, r.resourceUID = u := by
  have h : ∀ (os : List ManagedObject) (acc : List (String × ManagedObject)),
      u ∈ ((os.foldl (fun m o =>
          m.filter (fun q => ¬ q.1 = o.resourceUID) ++ [(o.resourceUID, o)]) acc).map
            Prod.fst) ↔
        u ∈ acc.map Prod.fst ∨ ∃ r ∈ os, r.resourceUID = u := by
    intro os
    induction os with
    | nil =>
      intro acc
      simp
    | cons o os ih =>
      intro acc
      rw [List.foldl_cons, ih]
      constructor
      · rintro (hin | ⟨r, hr, hru⟩)
        · rw [List.map_append] at hin
          rcases List.mem_append.mp hin with hf | hs
          · obtain ⟨q, hq, hqu⟩ := List.mem_map.mp hf
            exact Or.inl (List.mem_map.mpr ⟨q, (List.mem_filter.mp hq).1, hqu⟩)
          · refine Or.inr ⟨o, List.mem_cons_self o os, ?_⟩
            have : u = o.resourceUID := by simpa using hs
            exact this.symm
        · exact Or.inr ⟨r, List.mem_cons_of_mem o hr, hru⟩
      · rintro (hacc | ⟨r, hr, hru⟩)
        · by_cases hu : o.resourceUID = u
          · refine Or.inl ?_
            rw [List.map_append]
            refine List.mem_append.mpr (Or.inr ?_)
            simp [hu]
          · obtain ⟨q, hq, hqu⟩ := List.mem_map.mp hacc
            refine Or.inl ?_
            rw [List.map_append]
            refine List.mem_append.mpr (Or.inl
              (List.mem_map.mpr ⟨q, List.mem_filter.mpr ⟨hq, ?_⟩, hqu⟩))
            rw [decide_eq_true_eq]
            intro hc
            rw [hc] at hqu
            exact hu hqu
        · rcases List.mem_cons.mp hr with heq | hr2
          · subst heq
            refine Or.inl ?_
            rw [List.map_append]
            refine List.mem_append.mpr (Or.inr ?_)
            simp [hru]
          · exact Or.inr ⟨r, hr2, hru⟩
  have h0 := h objs []
  simpa [buildUIDMap] using h0

/-- C8: one reconciliation pass over a kind performs exactly the claimed
mutations.  With `C` the cluster-map keys and `D` the DB-map keys: an insert
action for `o` occurs exactly for the cluster entries whose UID is in
`C` but not `D`, the inserted record being the transient record stamped
`detection_source = reconciliation` and `cluster_state = exists`; a
`set_state(u, deleted)` action occurs exactly for the `u` in `D` but not `C`;
a `set_last_reconciled` touch occurs exactly for the DB rows whose UID is in
both; and (the two final components) `D` is exactly the `resource_uid` set
of `GetAllActiveObjects`, which returns exactly the log rows in the `exists`
state of the given kind. -/
theorem C8_reconcile_pass (cluster dbMap : List (String × ManagedObject)) :
    (∀ o, RecAction.insertObj o ∈ reconcileActions cluster dbMap ↔
      ∃ p ∈ cluster, ¬ p.1 ∈ dbMap.map Prod.fst ∧
        o = { p.2 with detectionSource := DetectionSourceReconciliation,
                       clusterState := ClusterStateExists }) ∧
    (∀ u, RecAction.setDeleted u ∈ reconcileActions cluster dbMap ↔
      (u ∈ dbMap.map Prod.fst ∧ ¬ u ∈ cluster.map Prod.fst)) ∧
    (∀ i, RecAction.touch i ∈ reconcileActions cluster dbMap ↔
      ∃ p ∈ dbMap, p.1 ∈ cluster.map Prod.fst ∧ p.2.id = i) ∧
    (∀ objs u, u ∈ (buildUIDMap objs).map Prod.fst ↔
      ∃ r ∈ objs, r.resourceUID = u) ∧
    (∀ (log : Log) (kind : String) (r : ManagedObject),
      r ∈ getAllActiveObjects log kind ↔
        (r ∈ log ∧ r.clusterState = ClusterStateExists ∧
          r.resourceType = kind)) := by
  have hany : ∀ (m : List (String × ManagedObject)) (u : String),
      ((m.any fun q => q.1 = u) = true) ↔ u ∈ m.map Prod.fst := by
    intro m u
    simp [List.any_eq_true]
  have hcnd : ∀ (m : List (String × ManagedObject)) (u : String),
      ((m.any fun q => q.1 = u) = false) ↔ ¬ u ∈ m.map Prod.fst := by
    intro m u
    rw [Bool.eq_false_iff]
    exact not_congr (hany m u)
  refine ⟨?_, ?_, ?_, mem_buildUIDMap_keys, ?_⟩
  · intro o
    unfold reconcileActions
    constructor
    · intro h
      rcases List.mem_append.mp h with hAB | hC
      · rcases List.mem_append.mp hAB with hA | hB
        · obtain ⟨p, hpf, heq⟩ := List.mem_map.mp hA
          obtain ⟨hp, hcond⟩ := List.mem_filter.mp hpf
          have ho := RecAction.insertObj.inj heq
          refine ⟨p, hp, ?_, ho.symm⟩
          rw [Bool.not_eq_true'] at hcond
          exact (hcnd dbMap p.1).mp hcond
        · obtain ⟨p, _, heq⟩ := List.mem_map.mp hB
          exact RecAction.noConfusion heq
      · obtain ⟨p, _, heq⟩ := List.mem_map.mp hC
        exact RecAction.noConfusion heq
    · rintro ⟨p, hp, hnd, rfl⟩
      refine List.mem_append.mpr (Or.inl (List.mem_append.mpr (Or.inl
        (List.mem_map.mpr ⟨p, List.mem_filter.mpr ⟨hp, ?_⟩, rfl⟩))))
      rw [Bool.not_eq_true']
      exact (hcnd dbMap p.1).mpr hnd
  · intro u
    unfold reconcileActions
    constructor
    · intro h
      rcases List.mem_append.mp h with hAB | hC
      · rcases List.mem_append.mp hAB with hA | hB
        · obtain ⟨p, _, heq⟩ := List.mem_map.mp hA
          exact RecAction.noConfusion heq
        · obtain ⟨p, hpf, heq⟩ := List.mem_map.mp hB
          obtain ⟨hp, hcond⟩ := List.mem_filter.mp hpf
          have hu := RecAction.setDeleted.inj heq
          subst hu
          refine ⟨List.mem_map.mpr ⟨p, hp, rfl⟩, ?_⟩
          rw [Bool.not_eq_true'] at hcond
          exact (hcnd cluster p.1).mp hcond
      · obtain ⟨p, _, heq⟩ := List.mem_map.mp hC
        exact RecAction.noConfusion heq
    · rintro ⟨hd, hnc⟩
      obtain ⟨p, hp, hpu⟩ := List.mem_map.mp hd
      subst hpu
      refine List.mem_append.mpr (Or.inl (List.mem_append.mpr (Or.inr
        (List.mem_map.mpr ⟨p, List.mem_filter.mpr ⟨hp, ?_⟩, rfl⟩))))
      rw [Bool.not_eq_true']
      exact (hcnd cluster p.1).mpr hnc
  · intro i
    unfold reconcileActions
    constructor
    · intro h
      rcases List.mem_append.mp h with hAB | hC
      · rcases List.mem_append.mp hAB with hA | hB
        · obtain ⟨p, _, heq⟩ := List.mem_map.mp hA
          exact RecAction.noConfusion heq
        · obtain ⟨p, _, heq⟩ := List.mem_map.mp hB
          exact RecAction.noConfusion heq
      · obtain ⟨p, hpf, heq⟩ := List.mem_map.mp hC
        obtain ⟨hp, hcond⟩ := List.mem_filter.mp hpf
        exact ⟨p, hp, (hany cluster p.1).mp hcond,
          RecAction.touch.inj heq⟩
    · rintro ⟨p, hp, hc, hi⟩
      exact List.mem_append.mpr (Or.inr
        (List.mem_map.mpr ⟨p, List.mem_filter.mpr
          ⟨hp, (hany cluster p.1).mpr hc⟩, hi ▸ rfl⟩))
  · intro log kind r
    unfold getAllActiveObjects
    rw [List.mem_filter]
    simp [Bool.and_eq_true]

/-- Witness for C8 on a one-entry cluster map against an empty DB map. -/
theorem C8_reconcile_pass_witness :
    RecAction.insertObj { baseRecord with
        detectionSource := DetectionSourceReconciliation,
        clusterState := ClusterStateExists } ∈
      reconcileActions [("uid-1", baseRecord)] [] :=
  ((C8_reconcile_pass [("uid-1", baseRecord)] []).1 _).mpr
    ⟨("uid-1", baseRecord), by decide, by decide, rfl⟩

end Beacon